import Mathlib

/-!
Verification of the generic batching engine (`pkg/batcher`) and the loader's
retry adapter (`cmd/loader/main.go insertWithRetry`) of the tiny-analytics
service, as a shallow embedding in Lean 4.

Go `error` values are modelled as `Option String` (`none` = `nil`).
The sink function `flushFn func([]T) error` is modelled as
`Option (List T → Option String)` (`none` = a `nil` function value).
Each engine state carries a ghost field `sinkCalls` recording, in order,
every batch actually passed to the sink function; the engine code never
reads it, it only serves to observe sink invocations in theorems.
-/

namespace Batcher

/-- The configuration-error message returned by `runFlush` when no flush
function was configured (`errors.New("batcher: no flush function configured")`). -/
def noFlushFnMsg : String := "batcher: no flush function configured"

/-- State of one `Batcher[T]` instance: the pending buffer, the size
threshold `maxSize`, the sink `flushFn`, and the `lastError` slot written by
the background ticker.  `sinkCalls` is a ghost log of sink invocations. -/
structure BState (T : Type) where
  buffer : List T
  maxSize : Nat
  flushFn : Option (List T → Option String)
  lastError : Option String
  sinkCalls : List (List T)

/-- `New(maxSize, interval, flushFn)`: fresh instance with an empty buffer
and no recorded error.  (The interval duration and the started goroutine are
modelled separately by `loop`.) -/
def New (T : Type) (maxSize : Nat) (flushFn : Option (List T → Option String)) : BState T :=
  { buffer := [], maxSize := maxSize, flushFn := flushFn, lastError := none, sinkCalls := [] }

/-- `detach`: if the buffer is empty return `nil` ("no batch"); otherwise
copy the buffer into a fresh batch and reset the buffer to length 0.
Returns the batch together with the post-detach state. -/
def detach {T : Type} (b : BState T) : List T × BState T :=
  if b.buffer.length = 0 then ([], b)
  else (b.buffer, { b with buffer := [] })

/-- `runFlush(batch)`: a no-op returning `nil` on an empty batch; a
configuration error when `flushFn` is `nil`; otherwise invoke the sink on
the batch (recorded in the ghost log) and return its error. -/
def runFlush {T : Type} (b : BState T) (batch : List T) : BState T × Option String :=
  if batch.length = 0 then (b, none)
  else
    match b.flushFn with
    | none => (b, some noFlushFnMsg)
    | some f => ({ b with sinkCalls := b.sinkCalls ++ [batch] }, f batch)

/-- `Add(item)`: append under the lock, check the threshold atomically with
the append, detach while still holding the lock when the threshold is met,
then run the flush outside the lock and return its error. -/
def Add {T : Type} (b : BState T) (item : T) : BState T × Option String :=
  let b1 := { b with buffer := b.buffer ++ [item] }
  if b.maxSize ≤ b1.buffer.length then
    let (batch, b2) := detach b1
    runFlush b2 batch
  else
    (b1, none)

/-- `Flush()`: detach under the lock, then run the flush outside it. -/
def Flush {T : Type} (b : BState T) : BState T × Option String :=
  let (batch, b1) := detach b
  runFlush b1 batch

/-- `LastError()`: read the last background-flush error under the lock. -/
def LastError {T : Type} (b : BState T) : Option String :=
  b.lastError

/-- One tick of the background loop: call `Flush`; when it returns an
error, store it into `lastError`, otherwise leave `lastError` alone. -/
def tick {T : Type} (b : BState T) : BState T :=
  match Flush b with
  | (b1, some e) => { b1 with lastError := some e }
  | (b1, none) => b1

/-- Scheduler events delivered to the background loop: a ticker firing, or
the `stop` channel being closed. -/
inductive Ev where
  | tick : Ev
  | halt : Ev
deriving DecidableEq, Repr

/-- The background goroutine `loop`, run over a serialized schedule of
events: a ticker event performs a `tick`; a `halt` event (the closed `stop`
channel being selected) makes the loop return at once, ignoring the rest of
the schedule. -/
def loop {T : Type} (b : BState T) : List Ev → BState T
  | [] => b
  | Ev.tick :: rest => loop (tick b) rest
  | Ev.halt :: _ => b

/-- `Close()`: after the `stop` channel is closed and `wg.Wait()` has
observed the loop's termination (modelled by `loop` having returned and
its final state being `b`), perform exactly one final `Flush` and return
its outcome. -/
def Close {T : Type} (b : BState T) : BState T × Option String :=
  Flush b

/-- High-level operations an instance's serialized history is made of: a
producer `Add`, or a flush-triggering detach (caller `Flush` or an interval
tick — both go through `detach` then `runFlush`). -/
inductive Op (T : Type) where
  | add : T → Op T
  | detachFlush : Op T

/-- Run a serialized history of operations, ignoring returned errors. -/
def runOps {T : Type} (b : BState T) : List (Op T) → BState T
  | [] => b
  | Op.add x :: rest => runOps (Add b x).1 rest
  | Op.detachFlush :: rest => runOps (Flush b).1 rest

/-- The items a serialized history adds, in order. -/
def addedItems {T : Type} : List (Op T) → List T
  | [] => []
  | Op.add x :: rest => x :: addedItems rest
  | Op.detachFlush :: rest => addedItems rest

/-- Fold a list of producer `Add` calls, ignoring returned errors. -/
def addAll {T : Type} (b : BState T) (xs : List T) : BState T :=
  xs.foldl (fun s x => (Add s x).1) b

end Batcher

namespace Loader

/-- `const maxAttempts = 5` in `insertWithRetry`. -/
def maxAttempts : Nat := 5

/-- Initial backoff: `200 * time.Millisecond`, in milliseconds. -/
def baseBackoffMs : Nat := 200

/-- Backoff cap: `5 * time.Second`, in milliseconds. -/
def backoffCapMs : Nat := 5000

/-- Outcome of `insertWithRetry`.  `ctxCancelled` is `ctx.Err()` observed
in the `select` while waiting to retry; `loopExit` is the trailing
`return nil` after the `for` loop (unreachable in practice). -/
inductive RetryOutcome where
  | success : RetryOutcome
  | failed : String → RetryOutcome
  | ctxCancelled : RetryOutcome
  | loopExit : RetryOutcome
deriving DecidableEq, Repr

/-- The `for attempt := 1; attempt <= maxAttempts; attempt++` loop of
`insertWithRetry`.  `sink a` is the error returned by the ClickHouse
insert on attempt `a` (`none` = success); `cancelled a` says whether the
context is done during the backoff wait that follows attempt `a`.  `fuel`
counts the loop iterations still permitted by the loop condition, so
exhausting it is the trailing `return nil`.  Alongside the outcome, two
ghost logs are returned: the backoff waits actually slept (ms, in order)
and the attempt numbers on which the insert was actually invoked. -/
def retryLoop (sink : Nat → Option String) (cancelled : Nat → Bool) :
    Nat → Nat → Nat → List Nat → List Nat → RetryOutcome × List Nat × List Nat
  | 0, _, _, waits, tried => (RetryOutcome.loopExit, waits, tried)
  | fuel + 1, attempt, backoff, waits, tried =>
    match sink attempt with
    | none => (RetryOutcome.success, waits, tried ++ [attempt])
    | some e =>
      if attempt = maxAttempts then (RetryOutcome.failed e, waits, tried ++ [attempt])
      else if cancelled attempt then (RetryOutcome.ctxCancelled, waits, tried ++ [attempt])
      else retryLoop sink cancelled fuel (attempt + 1)
        (min (backoff * 2) backoffCapMs) (waits ++ [backoff]) (tried ++ [attempt])

/-- `insertWithRetry(ctx, client, events)` modulo the batch payload: the
retry loop started at attempt 1 with the base backoff. -/
def insertWithRetry (sink : Nat → Option String) (cancelled : Nat → Bool) :
    RetryOutcome × List Nat × List Nat :=
  retryLoop sink cancelled maxAttempts 1 baseBackoffMs [] []

end Loader

namespace Batcher

/-! ### Helper lemmas about `detach`, `runFlush`, `Flush`, `Add` -/

theorem detach_empty {T : Type} (b : BState T) (h : b.buffer = []) :
    detach b = ([], b) := by
  simp [detach, h]

theorem detach_nonempty {T : Type} (b : BState T) (h : b.buffer ≠ []) :
    detach b = (b.buffer, { b with buffer := [] }) := by
  simp [detach, List.length_eq_zero, h]

theorem Flush_empty {T : Type} (b : BState T) (h : b.buffer = []) :
    Flush b = (b, none) := by
  simp [Flush, detach_empty b h, runFlush]

theorem Flush_nonempty {T : Type} (b : BState T) (h : b.buffer ≠ []) :
    Flush b = runFlush { b with buffer := [] } b.buffer := by
  simp [Flush, detach_nonempty b h]

theorem runFlush_buffer {T : Type} (b : BState T) (batch : List T) :
    ((runFlush b batch).1).buffer = b.buffer := by
  unfold runFlush
  split
  case isTrue => rfl
  case isFalse =>
    cases b.flushFn <;> rfl

theorem Flush_buffer {T : Type} (b : BState T) : ((Flush b).1).buffer = [] := by
  by_cases h : b.buffer = []
  · rw [Flush_empty b h, h]
  · rw [Flush_nonempty b h, runFlush_buffer]

theorem runFlush_lastError {T : Type} (b : BState T) (batch : List T) :
    ((runFlush b batch).1).lastError = b.lastError := by
  unfold runFlush
  split
  case isTrue => rfl
  case isFalse =>
    cases b.flushFn <;> rfl

theorem Flush_lastError {T : Type} (b : BState T) :
    ((Flush b).1).lastError = b.lastError := by
  by_cases h : b.buffer = []
  · rw [Flush_empty b h]
  · rw [Flush_nonempty b h, runFlush_lastError]

theorem Add_lastError {T : Type} (b : BState T) (x : T) :
    ((Add b x).1).lastError = b.lastError := by
  simp only [Add]
  split
  case isTrue =>
    rw [detach_nonempty _ (by simp), runFlush_lastError]
  case isFalse => rfl

end Batcher

/-- C7: `detach` on an empty buffer yields "no batch" (`nil`) and leaves the
state untouched; a flush performed on an empty buffer — whether a caller
`Flush`, an interval `tick`, or the final drain in `Close` — does not invoke
the sink (the ghost `sinkCalls` log is unchanged because the whole state is
unchanged) and returns success (`nil`). -/
theorem empty_detach_no_batch_flush_noop {T : Type} (b : Batcher.BState T)
    (h : b.buffer = []) :
    Batcher.detach b = ([], b)
      ∧ Batcher.Flush b = (b, none)
      ∧ Batcher.tick b = b
      ∧ Batcher.Close b = (b, none) := by
  refine ⟨Batcher.detach_empty b h, Batcher.Flush_empty b h, ?_, Batcher.Flush_empty b h⟩
  rw [Batcher.tick, Batcher.Flush_empty b h]

/-- Witness for C7: a concrete instance with a sink that would fail if it
were ever invoked; the empty-buffer flush still succeeds without calling it. -/
theorem empty_detach_no_batch_flush_noop_witness :
    Batcher.Flush (Batcher.New Nat 3 (some fun _ => some "sink boom")) =
      (Batcher.New Nat 3 (some fun _ => some "sink boom"), none) :=
  (empty_detach_no_batch_flush_noop (Batcher.New Nat 3 (some fun _ => some "sink boom"))
    rfl).2.1

/-- C6 counterexample: the claim says a missing sink surfaces a configuration
error on every flush attempt "regardless of the buffer's contents", but
`runFlush` checks batch emptiness first: flushing an empty buffer with
`flushFn = nil` returns success, not the configuration error. -/
theorem flush_no_sink_empty_buffer_no_config_error :
    (Batcher.Flush (Batcher.New Nat 3 none)).2 = none
      ∧ (Batcher.Flush (Batcher.New Nat 3 none)).2 ≠ some Batcher.noFlushFnMsg := by
  constructor
  · rfl
  · intro hcontra
    exact Option.noConfusion hcontra

/-- C6 amended: when no sink was supplied, every flush whose detached batch
is non-empty surfaces the configuration error immediately — the sink log is
unchanged and no retry happens (the error is returned directly); a flush of
an empty buffer instead returns success without surfacing the error. -/
theorem no_sink_nonempty_flush_config_error {T : Type} (b : Batcher.BState T)
    (hfn : b.flushFn = none) (hne : b.buffer ≠ []) :
    Batcher.Flush b = ({ b with buffer := [] }, some Batcher.noFlushFnMsg) := by
  rw [Batcher.Flush_nonempty b hne]
  unfold Batcher.runFlush
  simp [hfn, List.length_eq_zero, hne]

/-- Witness for C6's amended theorem: a concrete no-sink instance holding
one buffered item; `Flush` returns the configuration error and clears. -/
theorem no_sink_nonempty_flush_config_error_witness :
    Batcher.Flush
      ({ buffer := [7], maxSize := 3, flushFn := none, lastError := none,
         sinkCalls := [] } : Batcher.BState Nat) =
      ({ buffer := [], maxSize := 3, flushFn := none, lastError := none,
         sinkCalls := [] }, some Batcher.noFlushFnMsg) :=
  no_sink_nonempty_flush_config_error _ rfl (by simp)

/-- C8: detaching a non-empty buffer transfers ownership of the items: the
batch is the whole buffer contents (an immutable snapshot, mirroring the
`make`/`copy` in `detach` — later appends mutate only the new `buffer`
value, never the returned batch), the buffer is reset to empty before the
flush outcome is computed (`Flush` runs `runFlush` on the already-cleared
state), and whatever the sink returns — including a terminal failure after
all retries — the post-flush buffer is empty: failed items are never
returned or requeued. -/
theorem detach_transfers_ownership_no_requeue {T : Type} (b : Batcher.BState T)
    (h : b.buffer ≠ []) :
    Batcher.detach b = (b.buffer, { b with buffer := [] })
      ∧ Batcher.Flush b = Batcher.runFlush { b with buffer := [] } b.buffer
      ∧ ((Batcher.Flush b).1).buffer = [] :=
  ⟨Batcher.detach_nonempty b h, Batcher.Flush_nonempty b h, Batcher.Flush_buffer b⟩

/-- Witness for C8: a concrete instance whose sink always fails; the flush
reports the failure yet the items stay dropped (buffer left empty). -/
theorem detach_transfers_ownership_no_requeue_witness :
    ((Batcher.Flush
        ({ buffer := [1, 2], maxSize := 10, flushFn := some fun _ => some "boom",
           lastError := none, sinkCalls := [] } : Batcher.BState Nat)).1).buffer = [] :=
  (detach_transfers_ownership_no_requeue
    ({ buffer := [1, 2], maxSize := 10, flushFn := some fun _ => some "boom",
       lastError := none, sinkCalls := [] } : Batcher.BState Nat) (by simp)).2.2

/-- C9: when the background ticker's `Flush` returns an error, `tick`
records it into the single `lastError` slot, overwriting whatever value was
there before (the result's `lastError` is `some e` for every prior value),
and `LastError` reads that slot back.  `tick` returns no error to any
caller: its only effect is the new state. -/
theorem interval_error_recorded_last_error {T : Type} (b : Batcher.BState T) (e : String)
    (h : (Batcher.Flush b).2 = some e) :
    Batcher.tick b = { (Batcher.Flush b).1 with lastError := some e }
      ∧ Batcher.LastError (Batcher.tick b) = some e := by
  have h2 : Batcher.Flush b = ((Batcher.Flush b).1, some e) := by rw [← h]
  constructor
  · unfold Batcher.tick
    rw [h2]
  · unfold Batcher.LastError Batcher.tick
    rw [h2]

/-- Witness for C9: a failing sink on a non-empty buffer; the tick
overwrites the previously recorded error `"old"` with `"boom"`. -/
theorem interval_error_recorded_last_error_witness :
    Batcher.LastError (Batcher.tick
      ({ buffer := [5], maxSize := 10, flushFn := some fun _ => some "boom",
         lastError := some "old", sinkCalls := [] } : Batcher.BState Nat)) = some "boom" :=
  (interval_error_recorded_last_error
    ({ buffer := [5], maxSize := 10, flushFn := some fun _ => some "boom",
       lastError := some "old", sinkCalls := [] } : Batcher.BState Nat) "boom" rfl).2

/-- C10: neither a threshold-crossing `Add` nor a caller `Flush` ever
modifies the `lastError` slot, whatever the flush's outcome — only the
ticker path (`tick`) writes it; the error of an `Add`/`Flush`-triggered
flush is only returned to that caller. -/
theorem add_flush_preserve_last_error {T : Type} (b : Batcher.BState T) (x : T) :
    ((Batcher.Add b x).1).lastError = b.lastError
      ∧ ((Batcher.Flush b).1).lastError = b.lastError :=
  ⟨Batcher.Add_lastError b x, Batcher.Flush_lastError b⟩

/-- C4: when the sink fails on all attempts and no cancellation fires, the
adapter makes exactly attempts 1–5 (no 6th attempt), returns the 5th
attempt's error — not an aggregate of the intermediate ones — and the
backoff waits actually slept are 200, 400, 800, 1600 ms: doubling after
each failed attempt from the 200 ms base, each below the 5000 ms cap. -/
theorem retry_exhaustion_returns_last_error (es : Nat → String)
    (sink : Nat → Option String) (cancelled : Nat → Bool)
    (hs : ∀ a, sink a = some (es a)) (hc : ∀ a, cancelled a = false) :
    Loader.insertWithRetry sink cancelled =
        (Loader.RetryOutcome.failed (es 5), [200, 400, 800, 1600], [1, 2, 3, 4, 5])
      ∧ ∀ w ∈ [200, 400, 800, 1600], w ≤ Loader.backoffCapMs := by
  constructor
  · simp [Loader.insertWithRetry, Loader.retryLoop, hs, hc, Loader.maxAttempts,
      Loader.baseBackoffMs, Loader.backoffCapMs]
  · decide

/-- Witness for C4: a concrete always-failing sink; the adapter returns the
error of attempt 5 with the full doubling wait sequence. -/
theorem retry_exhaustion_returns_last_error_witness :
    Loader.insertWithRetry (fun a => some (String.append "e" (toString a))) (fun _ => false) =
      (Loader.RetryOutcome.failed "e5", [200, 400, 800, 1600], [1, 2, 3, 4, 5]) :=
  (retry_exhaustion_returns_last_error (fun a => String.append "e" (toString a))
    (fun a => some (String.append "e" (toString a))) (fun _ => false)
    (fun _ => rfl) (fun _ => rfl)).1

/-- C5: if the sink keeps failing and the external cancellation signal
fires during the backoff wait that follows attempt `k` (any wait of the
loop: `1 ≤ k < maxAttempts`), the adapter returns the cancellation outcome
`ctx.Err()` rather than the sink's error, having invoked the sink only on
attempts 1..k — all remaining retries are abandoned — and having slept
only the `k - 1` earlier waits. -/
theorem retry_wait_cancellation_aborts (es : Nat → String)
    (sink : Nat → Option String) (cancelled : Nat → Bool) (k : Nat)
    (hk1 : 1 ≤ k) (hk2 : k < Loader.maxAttempts)
    (hs : ∀ a, sink a = some (es a)) (hc : ∀ a, cancelled a = decide (a = k)) :
    (Loader.insertWithRetry sink cancelled).1 = Loader.RetryOutcome.ctxCancelled
      ∧ (Loader.insertWithRetry sink cancelled).2.2 = List.range' 1 k
      ∧ (Loader.insertWithRetry sink cancelled).2.1 =
          List.take (k - 1) [200, 400, 800, 1600] := by
  have hk5 : k < 5 := hk2
  interval_cases k <;>
    simp [Loader.insertWithRetry, Loader.retryLoop, hs, hc, Loader.maxAttempts,
      Loader.baseBackoffMs, Loader.backoffCapMs, List.range']

/-- Witness for C5: the sink fails and cancellation fires during the wait
after attempt 2; the adapter reports cancellation, not the sink error. -/
theorem retry_wait_cancellation_aborts_witness :
    (Loader.insertWithRetry (fun _ => some "boom") (fun a => decide (a = 2))).1 =
      Loader.RetryOutcome.ctxCancelled :=
  (retry_wait_cancellation_aborts (fun _ => "boom") (fun _ => some "boom")
    (fun a => decide (a = 2)) 2 (by decide) (by decide)
    (fun _ => rfl) (fun _ => rfl)).1

namespace Batcher

theorem Add_below {T : Type} (b : BState T) (x : T)
    (h : b.buffer.length + 1 < b.maxSize) :
    Add b x = ({ b with buffer := b.buffer ++ [x] }, none) := by
  have hc : ¬ b.maxSize ≤ (b.buffer ++ [x]).length := by
    simp only [List.length_append, List.length_cons, List.length_nil]
    omega
  simp only [Add]
  rw [if_neg hc]

theorem Add_crossing {T : Type} (b : BState T) (x : T) (f : List T → Option String)
    (hf : b.flushFn = some f) (hcross : b.maxSize ≤ b.buffer.length + 1) :
    Add b x = ({ b with buffer := [], sinkCalls := b.sinkCalls ++ [b.buffer ++ [x]] },
      f (b.buffer ++ [x])) := by
  have hc : b.maxSize ≤ (b.buffer ++ [x]).length := by
    simp only [List.length_append, List.length_cons, List.length_nil]
    omega
  simp only [Add]
  rw [if_pos hc, detach_nonempty _ (by simp)]
  unfold runFlush
  rw [if_neg (by simp)]
  simp [hf]

theorem addAll_append {T : Type} (b : BState T) (l1 l2 : List T) :
    addAll b (l1 ++ l2) = addAll (addAll b l1) l2 :=
  List.foldl_append _ _ l1 l2

theorem addAll_below {T : Type} (xs : List T) (b : BState T)
    (h : b.buffer.length + xs.length < b.maxSize) :
    addAll b xs = { b with buffer := b.buffer ++ xs } := by
  induction xs generalizing b with
  | nil => simp [addAll]
  | cons x rest ih =>
    have hx : b.buffer.length + 1 < b.maxSize := by
      simp only [List.length_cons] at h
      omega
    have hstep : addAll b (x :: rest) = addAll ({ b with buffer := b.buffer ++ [x] }) rest := by
      simp only [addAll, List.foldl_cons]
      rw [Add_below b x hx]
    rw [hstep, ih ({ b with buffer := b.buffer ++ [x] })
      (by simp only [List.length_append, List.length_cons, List.length_nil]
          simp only [List.length_cons] at h
          omega)]
    simp

end Batcher

/-- C1: on a fresh instance with threshold `N ≥ 1` and a sink `f`, the
first `N - 1` `Add` calls trigger no flush (the sink log stays empty), and
the `Add` whose cumulative count reaches exactly `N` performs exactly one
flush before returning, delivering to the sink the single batch `xs` of
exactly the `N` items in insertion order, with the buffer empty immediately
after. -/
theorem add_threshold_single_flush {T : Type} (N : Nat) (f : List T → Option String)
    (xs : List T) (hN : 1 ≤ N) (hlen : xs.length = N) :
    (Batcher.addAll (Batcher.New T N (some f)) (xs.take (N - 1))).sinkCalls = []
      ∧ Batcher.addAll (Batcher.New T N (some f)) xs =
          { buffer := [], maxSize := N, flushFn := some f, lastError := none,
            sinkCalls := [xs] } := by
  obtain ⟨ys, z, hxs⟩ : ∃ ys z, xs = ys ++ [z] := by
    rcases List.eq_nil_or_concat xs with h | ⟨L, w, h⟩
    · subst h
      simp only [List.length_nil] at hlen
      omega
    · exact ⟨L, w, by simpa [List.concat_eq_append] using h⟩
  subst hxs
  have hys : ys.length = N - 1 := by
    simp only [List.length_append, List.length_cons, List.length_nil] at hlen
    omega
  have htake : (ys ++ [z]).take (N - 1) = ys := by
    rw [← hys]
    exact List.take_left ys [z]
  have h1 : Batcher.addAll (Batcher.New T N (some f)) ys =
      { Batcher.New T N (some f) with buffer := ys } := by
    have := Batcher.addAll_below ys (Batcher.New T N (some f))
      (by simp [Batcher.New]; omega)
    simpa [Batcher.New] using this
  constructor
  · rw [htake, h1]
    simp [Batcher.New]
  · rw [Batcher.addAll_append, h1]
    have h2 : Batcher.addAll ({ Batcher.New T N (some f) with buffer := ys }) [z] =
        (Batcher.Add ({ Batcher.New T N (some f) with buffer := ys }) z).1 := rfl
    rw [h2, Batcher.Add_crossing _ z f rfl (by simp [Batcher.New]; omega)]
    simp [Batcher.New]

/-- Witness for C1: threshold 2, items `[10, 20]`; the second `Add` flushes
the batch `[10, 20]` and leaves the buffer empty. -/
theorem add_threshold_single_flush_witness :
    Batcher.addAll (Batcher.New Nat 2 (some fun _ => none)) [10, 20] =
      { buffer := [], maxSize := 2, flushFn := some fun _ => none, lastError := none,
        sinkCalls := [[10, 20]] } :=
  (add_threshold_single_flush 2 (fun _ => none) [10, 20] (by decide) rfl).2

namespace Batcher

theorem Add_partition {T : Type} (b : BState T) (x : T) (f : List T → Option String)
    (hf : b.flushFn = some f) :
    ((Add b x).1).sinkCalls.flatten ++ ((Add b x).1).buffer
        = b.sinkCalls.flatten ++ b.buffer ++ [x]
      ∧ ((Add b x).1).flushFn = some f := by
  by_cases h : b.maxSize ≤ b.buffer.length + 1
  · rw [Add_crossing b x f hf h]
    simp [hf]
  · rw [Add_below b x (by omega)]
    simp [hf]

theorem Flush_partition {T : Type} (b : BState T) (f : List T → Option String)
    (hf : b.flushFn = some f) :
    ((Flush b).1).sinkCalls.flatten ++ ((Flush b).1).buffer
        = b.sinkCalls.flatten ++ b.buffer
      ∧ ((Flush b).1).flushFn = some f := by
  by_cases h : b.buffer = []
  · rw [Flush_empty b h]
    simp [h, hf]
  · rw [Flush_nonempty b h]
    unfold runFlush
    rw [if_neg (by simpa [List.length_eq_zero] using h)]
    simp [hf]

theorem runOps_partition {T : Type} (f : List T → Option String) :
    ∀ (ops : List (Op T)) (b : BState T), b.flushFn = some f →
      ((runOps b ops).sinkCalls.flatten ++ (runOps b ops).buffer
          = b.sinkCalls.flatten ++ b.buffer ++ addedItems ops)
        ∧ (runOps b ops).flushFn = some f
  | [], b, hf => by simp [runOps, addedItems, hf]
  | Op.add x :: rest, b, hf => by
    have hstep := Add_partition b x f hf
    have hrec := runOps_partition f rest (Add b x).1 hstep.2
    refine ⟨?_, hrec.2⟩
    rw [show runOps b (Op.add x :: rest) = runOps (Add b x).1 rest from rfl]
    rw [hrec.1, hstep.1]
    simp [addedItems]
  | Op.detachFlush :: rest, b, hf => by
    have hstep := Flush_partition b f hf
    have hrec := runOps_partition f rest (Flush b).1 hstep.2
    refine ⟨?_, hrec.2⟩
    rw [show runOps b (Op.detachFlush :: rest) = runOps (Flush b).1 rest from rfl]
    rw [hrec.1, hstep.1]
    simp [addedItems]

theorem runOps_append {T : Type} (b : BState T) (l1 l2 : List (Op T)) :
    runOps b (l1 ++ l2) = runOps (runOps b l1) l2 := by
  induction l1 generalizing b with
  | nil => rfl
  | cons op rest ih =>
    cases op with
    | add x => exact ih ((Add b x).1)
    | detachFlush => exact ih ((Flush b).1)

end Batcher

/-- C2: over any serialized history of `Add` and flush-triggering detach
operations on one instance with a configured sink, the detached batches
delivered to the sink, concatenated in order, followed by what is still in
the buffer, are exactly the added items in order — so no added item is
duplicated or lost, any two batches are disjoint (given pairwise-distinct
items), and for a history ending in a detach (the serialization point of
the two-concurrent-flush scenario) the union of all delivered batches is
exactly the set of items added before that detach. -/
theorem serialized_batches_partition_added {T : Type} (N : Nat)
    (f : List T → Option String) (ops : List (Batcher.Op T))
    (hnd : (Batcher.addedItems ops).Nodup) :
    (Batcher.runOps (Batcher.New T N (some f)) ops).sinkCalls.flatten
        ++ (Batcher.runOps (Batcher.New T N (some f)) ops).buffer
        = Batcher.addedItems ops
      ∧ List.Pairwise List.Disjoint
          (Batcher.runOps (Batcher.New T N (some f)) ops).sinkCalls
      ∧ (∀ init, ops = init ++ [Batcher.Op.detachFlush] →
          (Batcher.runOps (Batcher.New T N (some f)) ops).sinkCalls.flatten
            = Batcher.addedItems ops) := by
  have hpart := Batcher.runOps_partition f ops (Batcher.New T N (some f)) rfl
  have hmain : (Batcher.runOps (Batcher.New T N (some f)) ops).sinkCalls.flatten
      ++ (Batcher.runOps (Batcher.New T N (some f)) ops).buffer
      = Batcher.addedItems ops := by
    have := hpart.1
    simpa [Batcher.New] using this
  refine ⟨hmain, ?_, ?_⟩
  · have hall : ((Batcher.runOps (Batcher.New T N (some f)) ops).sinkCalls.flatten
        ++ (Batcher.runOps (Batcher.New T N (some f)) ops).buffer).Nodup := by
      rw [hmain]
      exact hnd
    exact (List.nodup_flatten.mp hall.of_append_left).2
  · intro init hinit
    have hbuf : (Batcher.runOps (Batcher.New T N (some f)) ops).buffer = [] := by
      rw [hinit, Batcher.runOps_append]
      exact Batcher.Flush_buffer _
    simpa [hbuf] using hmain

/-- Witness for C2: a concrete history adding 1, 2, detaching, adding 3 and
detaching again; the two delivered batches followed by the (empty) buffer
are exactly the added items. -/
theorem serialized_batches_partition_added_witness :
    (Batcher.runOps (Batcher.New Nat 10 (some fun _ => none))
        [Batcher.Op.add 1, Batcher.Op.add 2, Batcher.Op.detachFlush,
          Batcher.Op.add 3, Batcher.Op.detachFlush]).sinkCalls.flatten
      ++ (Batcher.runOps (Batcher.New Nat 10 (some fun _ => none))
        [Batcher.Op.add 1, Batcher.Op.add 2, Batcher.Op.detachFlush,
          Batcher.Op.add 3, Batcher.Op.detachFlush]).buffer
      = Batcher.addedItems
          [Batcher.Op.add 1, Batcher.Op.add 2, Batcher.Op.detachFlush,
            Batcher.Op.add 3, Batcher.Op.detachFlush] :=
  (serialized_batches_partition_added 10 (fun _ => none)
    [Batcher.Op.add 1, Batcher.Op.add 2, Batcher.Op.detachFlush,
      Batcher.Op.add 3, Batcher.Op.detachFlush] (by decide)).1

namespace Batcher

theorem loop_halt_prefix {T : Type} : ∀ (pre : List Ev) (b : BState T) (rest : List Ev),
    Ev.halt ∉ pre → loop b (pre ++ Ev.halt :: rest) = loop b pre
  | [], _, _, _ => rfl
  | Ev.tick :: p, b, rest, hp => by
    have hp2 : Ev.halt ∉ p := fun h => hp (List.mem_cons_of_mem _ h)
    exact loop_halt_prefix p (tick b) rest hp2
  | Ev.halt :: p, b, rest, hp => by simp at hp

end Batcher

/-- C3: `Close()` raises the cancellation signal and waits for the loop to
terminate — once the loop selects the closed `stop` channel (`halt`), every
later scheduled tick is ignored, so whatever ticks ran before the signal,
the interval path performs no sink invocation afterwards (the state, its
`sinkCalls` log included, is exactly that of the pre-signal schedule);
`Close` then performs exactly one final drain `Flush` on that state and
returns that flush's outcome, and if the buffer was already empty the
drain does not invoke the sink and returns success. -/
theorem close_stops_ticker_and_drains_once {T : Type} (b : Batcher.BState T)
    (pre rest : List Batcher.Ev) (hpre : Batcher.Ev.halt ∉ pre) :
    Batcher.loop b (pre ++ Batcher.Ev.halt :: rest) = Batcher.loop b pre
      ∧ Batcher.Close (Batcher.loop b pre) = Batcher.Flush (Batcher.loop b pre)
      ∧ ((Batcher.loop b pre).buffer = [] →
          Batcher.Close (Batcher.loop b pre) = (Batcher.loop b pre, none)) :=
  ⟨Batcher.loop_halt_prefix pre b rest hpre, rfl, fun h => Batcher.Flush_empty _ h⟩

/-- Witness for C3: one tick runs before the stop signal on an instance
whose buffer is empty; the final drain succeeds without invoking the sink. -/
theorem close_stops_ticker_and_drains_once_witness :
    Batcher.Close (Batcher.loop (Batcher.New Nat 3 (some fun _ => none)) [Batcher.Ev.tick]) =
      (Batcher.loop (Batcher.New Nat 3 (some fun _ => none)) [Batcher.Ev.tick], none) :=
  (close_stops_ticker_and_drains_once (Batcher.New Nat 3 (some fun _ => none))
    [Batcher.Ev.tick] [Batcher.Ev.tick] (by decide)).2.2 rfl
